import Mathlib

/-!
Verification of the DC_TermProject3 document-analysis pipeline.

This file gives a shallow embedding, in Lean 4, of the parts of the Python
source that the specification's claims talk about:

* `src/agents/base_agent.py`      — the shared JSON-calling helper;
* `src/agents/info_extractor.py`  — rule-based candidate extraction and the
                                    generative refinement wrapper;
* `src/agents/action_planner.py`  — the deterministic action-type/urgency
                                    tables and the plan post-processing;
* `src/agents/simplifier.py`      — the help-channel scan and the defaults;
* `src/core/pipeline.py`          — `analyze` / `analyze_text` orchestration;
* `src/api/main.py`               — the history log.

Generative (LLM) calls, OCR and the vector store are external capabilities;
each such call is modelled as an oracle parameter: either a parsed JSON
object (the value `BaseAgent._call_llm_json` handed back) or a raised
exception (`Except.error`).  Everything after those boundaries is translated
from the source.

Python dynamic values are modelled by `JValue`, a JSON-like value type, with
Python truthiness `JValue.truthy` and Python `==`-against-a-string
`JValue.eqStr`.  Python `dict`s are association lists (`JObj`) with
last-occurrence lookup, positional overwrite and append-on-new-key, matching
`dict` semantics on the duplicate-free lists the code builds.
-/

/-- JSON-like values, modelling the dynamic Python values flowing through the
pipeline.  Integral JSON numerals are `num`; non-integral numerals are kept
as their source text in `numExt` (no claim inspects a float's value). -/
inductive JValue where
  | null : JValue
  | bool (b : Bool) : JValue
  | num (n : Int) : JValue
  | numExt (raw : String) : JValue
  | str (s : String) : JValue
  | arr (xs : List JValue) : JValue
  | obj (kvs : List (String × JValue)) : JValue

/-- Python association-list model of a `dict` whose values are JSON-like. -/
abbrev JObj := List (String × JValue)

namespace JValue

/-- Digits of the mantissa of a JSON numeral text (drops sign, decimal point
and any exponent part), used to decide Python float truthiness. -/
def mantissaDigits (raw : String) : List Char :=
  ((raw.data.takeWhile (fun c => c ≠ 'e' ∧ c ≠ 'E')).filter Char.isDigit)

/-- Python truthiness of a value (`if value:`). -/
def truthy : JValue → Bool
  | null => false
  | bool b => b
  | num n => n ≠ 0
  | numExt raw => (mantissaDigits raw).any (fun c => c ≠ '0')
  | str s => s ≠ ""
  | arr xs => !xs.isEmpty
  | obj kvs => !kvs.isEmpty

/-- Python `value == "lit"` for a string literal `lit`. -/
def eqStr : JValue → String → Bool
  | str s, lit => s = lit
  | _, _ => false

end JValue

/-- `d[k]` lookup in a dict model; with duplicate keys the last occurrence
wins, as in a JSON object parsed by Python. -/
def jget : JObj → String → Option JValue
  | [], _ => none
  | (k', v) :: rest, k =>
    match jget rest k with
    | some r => some r
    | none => if k' = k then some v else none

/-- Python `d.get(k, default)`. -/
def jgetD (o : JObj) (k : String) (default : JValue) : JValue :=
  (jget o k).getD default

/-- Python `k in d`. -/
def jhasKey (o : JObj) (k : String) : Bool :=
  (jget o k).isSome

/-- Python `d[k] = v`: overwrite in place if the key is present, append
otherwise. -/
def jset (o : JObj) (k : String) (v : JValue) : JObj :=
  if jhasKey o k then
    o.map (fun kv => if kv.1 = k then (kv.1, v) else kv)
  else
    o ++ [(k, v)]

/-- Python `sub in s` on strings: substring containment, over char lists. -/
def charsContain (needle : List Char) : List Char → Bool
  | [] => needle.isEmpty
  | c :: rest => needle.isPrefixOf (c :: rest) || charsContain needle rest

/-- Python `sub in s` on strings. -/
def strContains (s sub : String) : Bool :=
  charsContain sub.data s.data

/-! ## Model of `json.loads` and `BaseAgent._call_llm_json`

`BaseAgent._call_llm_json` (src/agents/base_agent.py, lines 73-102) parses the
generative response with `json.loads`; on a `JSONDecodeError` it searches the
response for a `\x7b.*\x7d` block (`re.DOTALL`, greedy: first opening brace to
last closing brace) and parses that; a failure of this second parse is not
caught.  If no block is found it returns the diagnostic sentinel dict.

`jsonLoads` is an executable model of `json.loads` on the JSON grammar
(strict mode).  `\uXXXX` escapes become the code point without surrogate-pair
combination, which no claim exercises. -/

/-- JSON whitespace skipping. -/
def skipWs (cs : List Char) : List Char :=
  cs.dropWhile (fun c => c = ' ' || c = '\t' || c = '\n' || c = '\r')

/-- Hex digit value. -/
def hexVal (c : Char) : Option Nat :=
  if '0' ≤ c ∧ c ≤ '9' then some (c.toNat - 48)
  else if 'a' ≤ c ∧ c ≤ 'f' then some (c.toNat - 87)
  else if 'A' ≤ c ∧ c ≤ 'F' then some (c.toNat - 55)
  else none

/-- Body of a JSON string literal (after the opening quote), strict mode:
control characters are rejected, standard escapes are decoded. -/
def parseJStrChars : Nat → List Char → Option (List Char × List Char)
  | 0, _ => none
  | _, [] => none
  | fuel + 1, c :: rest =>
    if c = '"' then some ([], rest)
    else if c = '\\' then
      match rest with
      | [] => none
      | e :: rest2 =>
        let simpleEsc : Option Char :=
          if e = '"' then some '"'
          else if e = '\\' then some '\\'
          else if e = '/' then some '/'
          else if e = 'b' then some (Char.ofNat 8)
          else if e = 'f' then some (Char.ofNat 12)
          else if e = 'n' then some '\n'
          else if e = 'r' then some '\r'
          else if e = 't' then some '\t'
          else none
        match simpleEsc with
        | some d =>
          match parseJStrChars fuel rest2 with
          | some (tail, rem) => some (d :: tail, rem)
          | none => none
        | none =>
          if e = 'u' then
            match rest2 with
            | h1 :: h2 :: h3 :: h4 :: rest3 =>
              match hexVal h1, hexVal h2, hexVal h3, hexVal h4 with
              | some a, some b, some c', some d =>
                match parseJStrChars fuel rest3 with
                | some (tail, rem) =>
                  some (Char.ofNat (((a * 16 + b) * 16 + c') * 16 + d) :: tail, rem)
                | none => none
              | _, _, _, _ => none
            | _ => none
          else none
    else if c.toNat < 32 then none
    else
      match parseJStrChars fuel rest with
      | some (tail, rem) => some (c :: tail, rem)
      | none => none

/-- Value of a list of decimal digits. -/
def digitsToNat (ds : List Char) : Nat :=
  ds.foldl (fun a c => a * 10 + (c.toNat - 48)) 0

/-- JSON number, strict grammar: `-? (0 | [1-9][0-9]*) (. [0-9]+)?
((e|E) (+|-)? [0-9]+)?`.  Integral numerals produce `JValue.num`; numerals
with a fraction or exponent are kept as text in `JValue.numExt`. -/
def parseNumber (cs : List Char) : Option (JValue × List Char) :=
  let (neg, cs1) := match cs with
    | '-' :: r => (true, r)
    | _ => (false, cs)
  let ipart? : Option (List Char × List Char) := match cs1 with
    | '0' :: r => some (['0'], r)
    | c :: r =>
      if c.isDigit then
        some (c :: r.takeWhile Char.isDigit, r.dropWhile Char.isDigit)
      else none
    | [] => none
  match ipart? with
  | none => none
  | some (ids, r1) =>
    let fpart? : Option (Option (List Char) × List Char) := match r1 with
      | '.' :: r2 =>
        match r2.takeWhile Char.isDigit with
        | [] => none
        | fs => some (some fs, r2.dropWhile Char.isDigit)
      | _ => some (none, r1)
    match fpart? with
    | none => none
    | some (fds, r2) =>
      let epart? : Option (Bool × List Char) := match r2 with
        | 'e' :: r3 =>
          let r4 := match r3 with
            | '+' :: r5 => r5
            | '-' :: r5 => r5
            | _ => r3
          match r4.takeWhile Char.isDigit with
          | [] => none
          | _ => some (true, r4.dropWhile Char.isDigit)
        | 'E' :: r3 =>
          let r4 := match r3 with
            | '+' :: r5 => r5
            | '-' :: r5 => r5
            | _ => r3
          match r4.takeWhile Char.isDigit with
          | [] => none
          | _ => some (true, r4.dropWhile Char.isDigit)
        | _ => some (false, r2)
      match epart? with
      | none => none
      | some (hasExp, r3) =>
        if fds.isSome || hasExp then
          some (JValue.numExt (String.mk (cs.take (cs.length - r3.length))), r3)
        else
          let n : Int := Int.ofNat (digitsToNat ids)
          some (JValue.num (if neg then -n else n), r3)

mutual

/-- JSON value parser (strict grammar of `json.loads`), fuelled. -/
def parseJValue : Nat → List Char → Option (JValue × List Char)
  | 0, _ => none
  | fuel + 1, cs =>
    match cs with
    | [] => none
    | 't' :: 'r' :: 'u' :: 'e' :: rest => some (JValue.bool true, rest)
    | 'f' :: 'a' :: 'l' :: 's' :: 'e' :: rest => some (JValue.bool false, rest)
    | 'n' :: 'u' :: 'l' :: 'l' :: rest => some (JValue.null, rest)
    | '"' :: rest =>
      match parseJStrChars (rest.length + 1) rest with
      | some (chars, rem) => some (JValue.str (String.mk chars), rem)
      | none => none
    | '[' :: rest =>
      let r1 := skipWs rest
      match r1 with
      | ']' :: rem => some (JValue.arr [], rem)
      | _ =>
        match parseJValue fuel r1 with
        | some (v, r2) =>
          match parseJArrTail fuel r2 with
          | some (vs, rem) => some (JValue.arr (v :: vs), rem)
          | none => none
        | none => none
    | '{' :: rest =>
      let r1 := skipWs rest
      match r1 with
      | '}' :: rem => some (JValue.obj [], rem)
      | '"' :: r2 =>
        match parseJStrChars (r2.length + 1) r2 with
        | some (kcs, r3) =>
          match skipWs r3 with
          | ':' :: r4 =>
            match parseJValue fuel (skipWs r4) with
            | some (v, r5) =>
              match parseJObjTail fuel r5 with
              | some (kvs, rem) => some (JValue.obj ((String.mk kcs, v) :: kvs), rem)
              | none => none
            | none => none
          | _ => none
        | none => none
      | _ => none
    | c :: _ =>
      if c = '-' ∨ c.isDigit then parseNumber cs else none

/-- Remaining elements of a JSON array after the first value. -/
def parseJArrTail : Nat → List Char → Option (List JValue × List Char)
  | 0, _ => none
  | fuel + 1, cs =>
    match skipWs cs with
    | ']' :: rem => some ([], rem)
    | ',' :: r1 =>
      match parseJValue fuel (skipWs r1) with
      | some (v, r2) =>
        match parseJArrTail fuel r2 with
        | some (vs, rem) => some (v :: vs, rem)
        | none => none
      | none => none
    | _ => none

/-- Remaining members of a JSON object after the first pair. -/
def parseJObjTail : Nat → List Char → Option (List (String × JValue) × List Char)
  | 0, _ => none
  | fuel + 1, cs =>
    match skipWs cs with
    | '}' :: rem => some ([], rem)
    | ',' :: r1 =>
      match skipWs r1 with
      | '"' :: r2 =>
        match parseJStrChars (r2.length + 1) r2 with
        | some (kcs, r3) =>
          match skipWs r3 with
          | ':' :: r4 =>
            match parseJValue fuel (skipWs r4) with
            | some (v, r5) =>
              match parseJObjTail fuel r5 with
              | some (kvs, rem) => some ((String.mk kcs, v) :: kvs, rem)
              | none => none
            | none => none
          | _ => none
        | none => none
      | _ => none
    | _ => none

end

/-- Model of `json.loads`: parse one JSON value with surrounding whitespace;
anything left over is a parse error (`None` here, an exception in Python). -/
def jsonLoads (s : String) : Option JValue :=
  match parseJValue (s.data.length + 1) (skipWs s.data) with
  | some (v, rest) => if skipWs rest = [] then some v else none
  | none => none

/-- Model of `re.search` for the pattern matching a first-to-last brace block
with `re.DOTALL` (greedy `.*`): the match runs from the first opening brace to
the last closing brace after it, if any. -/
def braceExtract (cs : List Char) : Option (List Char) :=
  match cs.dropWhile (fun c => c ≠ '{') with
  | [] => none
  | c :: tail =>
    let upto := (tail.reverse.dropWhile (fun c => c ≠ '}')).reverse
    if upto.isEmpty then none else some (c :: upto)

/-- The diagnostic sentinel dict of `BaseAgent._call_llm_json`. -/
def llmJsonSentinel (response : String) : JValue :=
  JValue.obj [("error", JValue.str "Failed to parse JSON"),
              ("raw_response", JValue.str response)]

/-- Model of `BaseAgent._call_llm_json` applied to the raw response text:
parse as JSON; on failure extract a brace block and parse that (a second
failure is uncaught, hence `Except.error`); with no block, return the
sentinel. -/
def callLlmJson (response : String) : Except String JValue :=
  match jsonLoads response with
  | some v => Except.ok v
  | none =>
    match braceExtract response.data with
    | some block =>
      match jsonLoads (String.mk block) with
      | some v => Except.ok v
      | none => Except.error "JSONDecodeError"
    | none => Except.ok (llmJsonSentinel response)

/-! ## Model of the rule-based extraction patterns

`InfoExtractor._compile_patterns` / `_extract_with_rules`
(src/agents/info_extractor.py, lines 53-151).  Each Python regex is
hand-compiled into a backtracking matcher over a character list, in
continuation-passing style; a matcher returns the unconsumed suffix of the
first successful parse in Python's backtracking order (greedy quantifiers
try longer consumptions first).  `\d` is modelled as an ASCII digit and `\s`
as ASCII whitespace; every input appearing in a theorem below uses only
those. -/

/-- Single mandatory character from a class. -/
def rxClass {α : Type} (f : Char → Bool) (k : List Char → Option α) :
    List Char → Option α := fun cs =>
  match cs with
  | x :: rest => if f x then k rest else none
  | [] => none

/-- One exact character. -/
def rxChar {α : Type} (c : Char) (k : List Char → Option α) :
    List Char → Option α :=
  rxClass (fun x => x = c) k

/-- An exact literal. -/
def rxLit {α : Type} : List Char → (List Char → Option α) →
    List Char → Option α
  | [], k => k
  | c :: more, k => rxChar c (rxLit more k)

/-- Greedy `class*` with backtracking. -/
def rxStar {α : Type} (f : Char → Bool) (k : List Char → Option α) :
    List Char → Option α
  | x :: rest =>
    if f x then
      match rxStar f k rest with
      | some r => some r
      | none => k (x :: rest)
    else k (x :: rest)
  | [] => k []

/-- Greedy `class{0,n}` with backtracking. -/
def rxRepUpTo {α : Type} (f : Char → Bool) : Nat → (List Char → Option α) →
    List Char → Option α
  | 0, k => k
  | n + 1, k => fun cs =>
    match cs with
    | x :: rest =>
      if f x then
        match rxRepUpTo f n k rest with
        | some r => some r
        | none => k (x :: rest)
      else k (x :: rest)
    | [] => k []

/-- Greedy `char?` with backtracking. -/
def rxOptChar {α : Type} (c : Char) (k : List Char → Option α) :
    List Char → Option α := fun cs =>
  match cs with
  | x :: rest =>
    if x = c then
      match k rest with
      | some r => some r
      | none => k (x :: rest)
    else k (x :: rest)
  | [] => k []

/-- Greedy `(?:,\d{3})*` with backtracking (the thousands-group star of the
currency patterns). -/
def rxStarCommaD3 {α : Type} (k : List Char → Option α) :
    List Char → Option α
  | ',' :: a :: b :: c :: rest =>
    if a.isDigit && b.isDigit && c.isDigit then
      match rxStarCommaD3 k rest with
      | some r => some r
      | none => k (',' :: a :: b :: c :: rest)
    else k (',' :: a :: b :: c :: rest)
  | cs => k cs

/-- `\s` (modelled as ASCII whitespace). -/
def isSpaceCh (c : Char) : Bool :=
  c = ' ' || c = '\t' || c = '\n' || c = '\r' || c = '\x0b' || c = '\x0c'

/-- `[:\s]`. -/
def isColonSpace (c : Char) : Bool := c = ':' || isSpaceCh c

/-- `[-)\s]`. -/
def isDashParenSpace (c : Char) : Bool := c = '-' || c = ')' || isSpaceCh c

/-- `[-\s]`. -/
def isDashSpace (c : Char) : Bool := c = '-' || isSpaceCh c

/-- `[\d\-]`. -/
def isDigitDash (c : Char) : Bool := c.isDigit || c = '-'

/-- `[-./년]`. -/
def isDateSep1 (c : Char) : Bool := c = '-' || c = '.' || c = '/' || c = '년'

/-- `[-./월]`. -/
def isDateSep2 (c : Char) : Bool := c = '-' || c = '.' || c = '/' || c = '월'

/-- `[-./]`. -/
def isDateSep (c : Char) : Bool := c = '-' || c = '.' || c = '/'

/-- `\d{1,3}`: one digit then up to two more, greedy. -/
def rxD13 {α : Type} (k : List Char → Option α) : List Char → Option α :=
  rxClass Char.isDigit (rxRepUpTo Char.isDigit 2 k)

/-- `\d{1,2}`. -/
def rxD12 {α : Type} (k : List Char → Option α) : List Char → Option α :=
  rxClass Char.isDigit (rxRepUpTo Char.isDigit 1 k)

/-- `\d{2}`. -/
def rxD2 {α : Type} (k : List Char → Option α) : List Char → Option α :=
  rxClass Char.isDigit (rxClass Char.isDigit k)

/-- `\d{4}`. -/
def rxD4 {α : Type} (k : List Char → Option α) : List Char → Option α :=
  rxClass Char.isDigit (rxClass Char.isDigit (rxClass Char.isDigit
    (rxClass Char.isDigit k)))

/-- `\d{2,4}`. -/
def rxD24 {α : Type} (k : List Char → Option α) : List Char → Option α :=
  rxClass Char.isDigit (rxClass Char.isDigit (rxRepUpTo Char.isDigit 2 k))

/-- `\d{3,4}`. -/
def rxD34 {α : Type} (k : List Char → Option α) : List Char → Option α :=
  rxClass Char.isDigit (rxClass Char.isDigit (rxClass Char.isDigit
    (rxRepUpTo Char.isDigit 1 k)))

/-- `\d{2,6}`. -/
def rxD26 {α : Type} (k : List Char → Option α) : List Char → Option α :=
  rxClass Char.isDigit (rxClass Char.isDigit (rxRepUpTo Char.isDigit 4 k))

/-- `[\d\-]+`. -/
def rxDigitDashPlus {α : Type} (k : List Char → Option α) :
    List Char → Option α :=
  rxClass isDigitDash (rxStar isDigitDash k)

/-- `\d{4}[-./]\d{1,2}[-./]\d{1,2}` (the date core of patterns 3-5). -/
def rxDateCore {α : Type} (k : List Char → Option α) : List Char → Option α :=
  rxD4 (rxClass isDateSep (rxD12 (rxClass isDateSep (rxD12 k))))

/-- The accepting continuation: a match attempt succeeds, return the rest. -/
def rxDone : List Char → Option (List Char) := fun cs => some cs

/-- Amount pattern 1: `(\d{1,3}(?:,\d{3})*)\s*원`. -/
def amtRx1 : List Char → Option (List Char) :=
  rxD13 (rxStarCommaD3 (rxStar isSpaceCh (rxChar '원' rxDone)))

/-- Amount pattern 2: `₩\s*(\d{1,3}(?:,\d{3})*)`. -/
def amtRx2 : List Char → Option (List Char) :=
  rxChar '₩' (rxStar isSpaceCh (rxD13 (rxStarCommaD3 rxDone)))

/-- Amount pattern 3: `금\s*(\d{1,3}(?:,\d{3})*)\s*원`. -/
def amtRx3 : List Char → Option (List Char) :=
  rxChar '금' (rxStar isSpaceCh
    (rxD13 (rxStarCommaD3 (rxStar isSpaceCh (rxChar '원' rxDone)))))

/-- Amount pattern 4: `합계[:\s]*(\d{1,3}(?:,\d{3})*)\s*원`. -/
def amtRx4 : List Char → Option (List Char) :=
  rxLit "합계".data (rxStar isColonSpace
    (rxD13 (rxStarCommaD3 (rxStar isSpaceCh (rxChar '원' rxDone)))))

/-- Amount pattern 5: `총액[:\s]*(\d{1,3}(?:,\d{3})*)\s*원`. -/
def amtRx5 : List Char → Option (List Char) :=
  rxLit "총액".data (rxStar isColonSpace
    (rxD13 (rxStarCommaD3 (rxStar isSpaceCh (rxChar '원' rxDone)))))

/-- Amount pattern 6: `납부금액[:\s]*(\d{1,3}(?:,\d{3})*)\s*원`. -/
def amtRx6 : List Char → Option (List Char) :=
  rxLit "납부금액".data (rxStar isColonSpace
    (rxD13 (rxStarCommaD3 (rxStar isSpaceCh (rxChar '원' rxDone)))))

/-- Date pattern 1: `(\d{4})[-./년]\s*(\d{1,2})[-./월]\s*(\d{1,2})일?`. -/
def dateRx1 : List Char → Option (List Char) :=
  rxD4 (rxClass isDateSep1 (rxStar isSpaceCh
    (rxD12 (rxClass isDateSep2 (rxStar isSpaceCh
      (rxD12 (rxOptChar '일' rxDone)))))))

/-- Date pattern 2: `(\d{4})\.(\d{2})\.(\d{2})`. -/
def dateRx2 : List Char → Option (List Char) :=
  rxD4 (rxChar '.' (rxD2 (rxChar '.' (rxD2 rxDone))))

/-- Date pattern 3: `납부기한[:\s]*(\d{4}[-./]\d{1,2}[-./]\d{1,2})`. -/
def dateRx3 : List Char → Option (List Char) :=
  rxLit "납부기한".data (rxStar isColonSpace (rxDateCore rxDone))

/-- Date pattern 4: `마감일[:\s]*(\d{4}[-./]\d{1,2}[-./]\d{1,2})`. -/
def dateRx4 : List Char → Option (List Char) :=
  rxLit "마감일".data (rxStar isColonSpace (rxDateCore rxDone))

/-- Date pattern 5: `기한[:\s]*(\d{4}[-./]\d{1,2}[-./]\d{1,2})`. -/
def dateRx5 : List Char → Option (List Char) :=
  rxLit "기한".data (rxStar isColonSpace (rxDateCore rxDone))

/-- Phone pattern 1: `(\d{2,4})[-)\s](\d{3,4})[-\s](\d{4})`. -/
def phoneRx1 : List Char → Option (List Char) :=
  rxD24 (rxClass isDashParenSpace (rxD34 (rxClass isDashSpace (rxD4 rxDone))))

/-- Phone pattern 2: `(1\d{3})` (special numbers like 1355, 1588). -/
def phoneRx2 : List Char → Option (List Char) :=
  rxChar '1' (rxClass Char.isDigit (rxClass Char.isDigit
    (rxClass Char.isDigit rxDone)))

/-- Phone pattern 3: `전화[:\s]*([\d\-]+)`. -/
def phoneRx3 : List Char → Option (List Char) :=
  rxLit "전화".data (rxStar isColonSpace (rxDigitDashPlus rxDone))

/-- Phone pattern 4: `연락처[:\s]*([\d\-]+)`. -/
def phoneRx4 : List Char → Option (List Char) :=
  rxLit "연락처".data (rxStar isColonSpace (rxDigitDashPlus rxDone))

/-- Phone pattern 5: `문의[:\s]*([\d\-]+)`. -/
def phoneRx5 : List Char → Option (List Char) :=
  rxLit "문의".data (rxStar isColonSpace (rxDigitDashPlus rxDone))

/-- Capture continuation for the account patterns: the remaining pattern is
exactly group 1, so record where the group starts and how much is left. -/
def rxGroupTail (inner : List Char → Option (List Char)) :
    List Char → Option (List Char × List Char) := fun cs =>
  match inner cs with
  | some rest => some (cs.take (cs.length - rest.length), rest)
  | none => none

/-- Account pattern 1: `계좌[^\d]*(\d{2,4}[-\s]?\d{2,6}[-\s]?\d{2,6})`;
the scanner keeps group 1. -/
def accRx1 : List Char → Option (List Char × List Char) :=
  rxLit "계좌".data (rxStar (fun c => !c.isDigit)
    (rxGroupTail (rxD24 (rxRepUpTo isDashSpace 1
      (rxD26 (rxRepUpTo isDashSpace 1 (rxD26 rxDone)))))))

/-- Account pattern 2: `납부번호[:\s]*([\d\-]+)`; the scanner keeps group 1. -/
def accRx2 : List Char → Option (List Char × List Char) :=
  rxLit "납부번호".data (rxStar isColonSpace (rxGroupTail (rxDigitDashPlus rxDone)))

/-- Account pattern 3: `가상계좌[:\s]*([\d\-]+)`; the scanner keeps group 1. -/
def accRx3 : List Char → Option (List Char × List Char) :=
  rxLit "가상계좌".data (rxStar isColonSpace (rxGroupTail (rxDigitDashPlus rxDone)))

/-- `re.finditer`: non-overlapping matches, scanning left to right; fuelled
(one unit per scan position suffices). -/
def rxScan (m : List Char → Option (List Char)) : Nat → List Char →
    List (List Char)
  | 0, _ => []
  | fuel + 1, cs =>
    match m cs with
    | some rest =>
      let matched := cs.take (cs.length - rest.length)
      if rest.length < cs.length then matched :: rxScan m fuel rest
      else
        match cs with
        | [] => [matched]
        | _ :: cs' => matched :: rxScan m fuel cs'
    | none =>
      match cs with
      | [] => []
      | _ :: cs' => rxScan m fuel cs'

/-- `re.finditer` keeping group 1 (used for the account patterns, whose
`lastindex` is always set). -/
def rxScanGroup (m : List Char → Option (List Char × List Char)) :
    Nat → List Char → List (List Char)
  | 0, _ => []
  | fuel + 1, cs =>
    match m cs with
    | some (grp, rest) =>
      if rest.length < cs.length then grp :: rxScanGroup m fuel rest
      else
        match cs with
        | [] => [grp]
        | _ :: cs' => grp :: rxScanGroup m fuel cs'
    | none =>
      match cs with
      | [] => []
      | _ :: cs' => rxScanGroup m fuel cs'

/-- The dedup-preserving-order accumulation of
`InfoExtractor._extract_with_rules`: append each match not already seen. -/
def addCandidates (acc : List String) (found : List String) : List String :=
  found.foldl (fun a x => if x ∈ a then a else a ++ [x]) acc

/-- All full matches (`match.group(0)`) of one pattern in a text. -/
def runRx (m : List Char → Option (List Char)) (text : String) : List String :=
  (rxScan m (text.data.length + 1) text.data).map String.mk

/-- All group-1 matches of one account pattern in a text. -/
def runRxGroup (m : List Char → Option (List Char × List Char))
    (text : String) : List String :=
  (rxScanGroup m (text.data.length + 1) text.data).map String.mk

/-- The `results["amounts"]` list of `_extract_with_rules`. -/
def amountsOf (text : String) : List String :=
  [amtRx1, amtRx2, amtRx3, amtRx4, amtRx5, amtRx6].foldl
    (fun acc m => addCandidates acc (runRx m text)) []

/-- The `results["dates"]` list of `_extract_with_rules`. -/
def datesOf (text : String) : List String :=
  [dateRx1, dateRx2, dateRx3, dateRx4, dateRx5].foldl
    (fun acc m => addCandidates acc (runRx m text)) []

/-- The `results["phones"]` list of `_extract_with_rules`. -/
def phonesOf (text : String) : List String :=
  [phoneRx1, phoneRx2, phoneRx3, phoneRx4, phoneRx5].foldl
    (fun acc m => addCandidates acc (runRx m text)) []

/-- The `results["accounts"]` list of `_extract_with_rules`. -/
def accountsOf (text : String) : List String :=
  [accRx1, accRx2, accRx3].foldl
    (fun acc m => addCandidates acc (runRxGroup m text)) []

/-- The rule-based candidates of `InfoExtractor._extract_with_rules`. -/
structure RuleCandidates where
  amounts : List String
  dates : List String
  phones : List String
  accounts : List String

/-- `InfoExtractor._extract_with_rules`. -/
def extractWithRules (text : String) : RuleCandidates :=
  { amounts := amountsOf text
    dates := datesOf text
    phones := phonesOf text
    accounts := accountsOf text }

/-! ## Model of the extractor's refinement wrapper

`InfoExtractor.process` / `_extract_with_llm` (src/agents/info_extractor.py,
lines 90-231).  The generative call is the oracle `llm`; the urgency-keyword
instructions live only in the prompt it receives.  The code then fills in
defaults for missing keys (presence check only) and returns the result. -/

/-- The `defaults` dict of `InfoExtractor._extract_with_llm`. -/
def extractorDefaults : List (String × JValue) :=
  [("amount", JValue.null),
   ("due_date", JValue.null),
   ("organization", JValue.null),
   ("penalty_risk", JValue.str "NONE"),
   ("action_required", JValue.bool false),
   ("contact", JValue.null),
   ("account_number", JValue.null),
   ("recipient_name", JValue.null)]

/-- `for key, default in defaults.items(): if key not in result:
result[key] = default`. -/
def fillMissing (o : JObj) (defaults : List (String × JValue)) : JObj :=
  defaults.foldl (fun r kd => if jhasKey r kd.1 then r else jset r kd.1 kd.2) o

/-- `InfoExtractor.process`: rule-based candidates feed only the generative
prompt; the returned dict is the oracle's object with defaults filled for
absent keys. -/
def extractorProcess (text : String) (llm : Except String JObj) :
    Except String JObj := do
  let _ruleBased := extractWithRules text
  let j ← llm
  pure (fillMissing j extractorDefaults)

/-! ## Model of the action planner

`ActionPlanner` (src/agents/action_planner.py, lines 56-209). -/

/-- `ActionPlanner._determine_action_type`. -/
def determineActionType (docType : String) (keyInfo : JObj) : String :=
  if (jgetD keyInfo "amount" JValue.null).truthy
      && (jgetD keyInfo "due_date" JValue.null).truthy then
    if (jgetD keyInfo "penalty_risk" JValue.null).eqStr "HIGH" then "URGENT"
    else "PAY"
  else if (jgetD keyInfo "action_required" JValue.null).truthy then
    if (jgetD keyInfo "penalty_risk" JValue.null).eqStr "HIGH" then "URGENT"
    else "CHECK"
  else
    let dtl := docType.toLower
    if (strContains dtl "고지서" || strContains dtl "납부")
        && (jgetD keyInfo "amount" JValue.null).truthy then "PAY"
    else if strContains dtl "통지서" || strContains dtl "체납" then "URGENT"
    else if strContains dtl "안내문" then "NONE"
    else "CHECK"

/-- `ActionPlanner._determine_urgency`. -/
def determineUrgency (keyInfo : JObj) : String :=
  let pr := jgetD keyInfo "penalty_risk" (JValue.str "NONE")
  if pr.eqStr "HIGH" then "HIGH"
  else if pr.eqStr "MEDIUM" then "MEDIUM"
  else if (jgetD keyInfo "action_required" JValue.null).truthy then "MEDIUM"
  else "LOW"

/-- The substituted generic step of `ActionPlanner._generate_action_plan`. -/
def genericStep : JValue :=
  JValue.arr [JValue.str "이 문서에 대해 추가 확인이 필요합니다."]

/-- `if "steps" not in result or not result["steps"]: result["steps"] =
[generic step]`. -/
def ensureSteps (j : JObj) : JObj :=
  match jget j "steps" with
  | none => jset j "steps" genericStep
  | some v => if v.truthy then j else jset j "steps" genericStep

/-- `if k not in result: result[k] = v`. -/
def ensureKey (j : JObj) (k : String) (v : JValue) : JObj :=
  if jhasKey j k then j else jset j k v

/-- Tail of `ActionPlanner._generate_action_plan` after the generative call:
substitute the generic step when `steps` is absent or falsy; fill
`action_type` / `urgency` from the decision tables only when the keys are
absent. -/
def generateActionPlan (actionType urgency : String)
    (llm : Except String JObj) : Except String JObj := do
  let j ← llm
  pure (ensureKey (ensureKey (ensureSteps j) "action_type"
    (JValue.str actionType)) "urgency" (JValue.str urgency))

/-- `ActionPlanner.process`.  `doc_type.lower()` requires an actual string;
the retrieved context and the key info shape only the generative prompt. -/
def plannerProcess (docType : JValue) (keyInfo : JObj) (_ragObj : JObj)
    (llm : Except String JObj) : Except String JObj :=
  match docType with
  | JValue.str s =>
    generateActionPlan (determineActionType s keyInfo)
      (determineUrgency keyInfo) llm
  | _ => Except.error "AttributeError"

/-! ## Model of the simplifier

`Simplifier._generate_simple_explanation` (src/agents/simplifier.py, lines
54-181).  The help-channel scan over the retrieved chunks feeds only the
generative prompt, but its dynamic attribute accesses can raise, so it is
modelled for its exception behaviour. -/

/-- Python `.get` needs an actual dict; anything else raises. -/
def asJObj : JValue → Except String JObj
  | JValue.obj o => Except.ok o
  | _ => Except.error "AttributeError"

/-- `', '.join(x)` succeeds on a string, a list of strings, or a dict (whose
keys are strings); everything else raises. -/
def joinOk : JValue → Bool
  | JValue.str _ => true
  | JValue.arr xs => xs.all (fun v => match v with
      | JValue.str _ => true
      | _ => false)
  | JValue.obj _ => true
  | _ => false

/-- The phone/online/visit section accesses of the help-channel scan. -/
def scanGuide (guideV : JValue) : Except String Unit := do
  let g ← asJObj guideV
  let ph := jgetD g "phone" JValue.null
  if ph.truthy then
    let _ ← asJObj ph
  let onl := jgetD g "online" JValue.null
  if onl.truthy then
    let _ ← asJObj onl
  let vis := jgetD g "visit" JValue.null
  if vis.truthy then
    let v ← asJObj vis
    let docs := jgetD v "documents" JValue.null
    if docs.truthy then
      if joinOk docs then pure () else Except.error "TypeError"

/-- One chunk of the help-channel scan; `true` means an action guide was
found (the loop breaks). -/
def scanChunk (chunk : JValue) : Except String Bool := do
  let c ← asJObj chunk
  let md ← asJObj (jgetD c "metadata" (JValue.obj []))
  let ag := jgetD md "action_guide" JValue.null
  if ag.truthy then
    let guide := match ag with
      | JValue.str s => (jsonLoads s).getD (JValue.obj [])
      | other => other
    scanGuide guide
    pure true
  else
    pure false

/-- The chunk loop with its `break` on the first found guide. -/
def scanChunks : List JValue → Except String Unit
  | [] => Except.ok ()
  | c :: rest => do
    let found ← scanChunk c
    if found then pure () else scanChunks rest

/-- `if rag_context and rag_context.get("retrieved_chunks"): for chunk in
...`: iterating a non-list truthy value makes the body raise (strings and
dicts iterate into strings, which have no `.get`; scalars are not
iterable). -/
def simplifierGuideScan (ragObj : JObj) : Except String Unit :=
  let chunks := jgetD ragObj "retrieved_chunks" JValue.null
  if !ragObj.isEmpty && chunks.truthy then
    match chunks with
    | JValue.arr xs => scanChunks xs
    | JValue.str _ => Except.error "AttributeError"
    | JValue.obj _ => Except.error "AttributeError"
    | _ => Except.error "TypeError"
  else Except.ok ()

/-- The `defaults` dict of `Simplifier._generate_simple_explanation`. -/
def simplifierDefaults : List (String × JValue) :=
  [("summary_one_line", JValue.str "확인이 필요한 문서입니다."),
   ("risk_level", JValue.str "LOW"),
   ("risk_message", JValue.str ""),
   ("what_is_this", JValue.str "공공기관에서 보낸 문서입니다."),
   ("key_points", JValue.arr []),
   ("steps_easy", JValue.arr [JValue.str "자세히 읽어보세요."]),
   ("help_channels", JValue.obj []),
   ("dont_worry", JValue.str ""),
   ("need_help_message", JValue.str "가까운 주민센터에 문의하세요.")]

/-- One step of the simplifier's default loop: `if key not in result or not
result[key]: result[key] = default`. -/
def fillFalsyStep (r : JObj) (kd : String × JValue) : JObj :=
  if (jgetD r kd.1 JValue.null).truthy then r else jset r kd.1 kd.2

/-- `for key, default in defaults.items(): if key not in result or not
result[key]: result[key] = default`. -/
def fillFalsy (o : JObj) (defaults : List (String × JValue)) : JObj :=
  defaults.foldl fillFalsyStep o

/-- `Simplifier.process`: run the help-channel scan (prompt-only product,
exception-relevant), call the oracle, fill the falsy-or-absent defaults. -/
def simplifierProcess (ragObj : JObj) (llm : Except String JObj) :
    Except String JObj := do
  simplifierGuideScan ragObj
  let j ← llm
  pure (fillFalsy j simplifierDefaults)

/-! ## Model of the pipeline orchestrator

`DocumentAnalysisPipeline` (src/core/pipeline.py).  Classification and
retrieval are network-backed stages whose internals are outside the claims;
each is an oracle `Except String JObj` (its returned dict, or the exception
it raised).  The extractor, planner and simplifier stages are modelled above
down to their own generative oracles.  The acquisition (preprocess + OCR)
stages of `analyze` are an external capability (spec §1) and enter as the
acquired text / mean confidence, or the exception they raised.  Elapsed
wall-clock time is an input; the `finally` block stores it on every path. -/

/-- The stage outcomes a single run consumes. -/
structure StageOracles where
  cls : Except String JObj
  ext : Except String JObj
  rag : Except String JObj
  plan : Except String JObj
  simpl : Except String JObj

/-- The `AnalysisResult` dataclass with its field defaults. -/
structure AnalysisResult where
  doc_type : JValue := JValue.str ""
  doc_type_name : JValue := JValue.str ""
  organization : JValue := JValue.str ""
  risk_level : JValue := JValue.str "LOW"
  action_required : JValue := JValue.bool false
  key_info : JObj := []
  summary_one_line : JValue := JValue.str ""
  what_is_this : JValue := JValue.str ""
  key_points : JValue := JValue.arr []
  steps_easy : JValue := JValue.arr []
  dont_worry : JValue := JValue.str ""
  need_help_message : JValue := JValue.str ""
  action_plan : JObj := []
  evidence_chunks : JValue := JValue.arr []
  ocr_confidence : Int := 0
  processing_time_ms : Int := 0

/-- The `except Exception` handler of `analyze` / `analyze_text`: fields
assigned by earlier stages survive, the three diagnostic fields are
overwritten. -/
def failurePatch (r : AnalysisResult) (e : String) : AnalysisResult :=
  { r with
    summary_one_line := JValue.str "문서 분석 중 오류가 발생했습니다.",
    what_is_this := JValue.str ("오류: " ++ e),
    steps_easy := JValue.arr [JValue.str "다시 시도해주세요."] }

/-- The empty-text short-circuit of `analyze`. -/
def emptyTextPatch (r : AnalysisResult) : AnalysisResult :=
  { r with
    summary_one_line := JValue.str "문서를 읽을 수 없습니다.",
    what_is_this := JValue.str "이미지 품질이 좋지 않아 글자를 인식하지 못했습니다.",
    steps_easy := JValue.arr [JValue.str "더 선명한 사진을 다시 찍어주세요."] }

/-- Python `not full_text.strip()`: true exactly when the text is empty or
whitespace-only (`\s` modelled as ASCII whitespace). -/
def stripEmpty (s : String) : Bool :=
  s.data.all Char.isWhitespace

/-- The risk-level derivation of the pipeline (lines 153-160 / 234-240). -/
def deriveRiskLevel (keyInfo : JObj) : JValue :=
  let pr := jgetD keyInfo "penalty_risk" (JValue.str "NONE")
  if pr.eqStr "HIGH" then JValue.str "HIGH"
  else if pr.eqStr "MEDIUM" then JValue.str "MEDIUM"
  else JValue.str "LOW"

/-- Stage 7 of the pipeline: simplification and the final field assignments
(lines 179-192), with the `except` handler for an exception in it. -/
def simplStage (r4 : AnalysisResult) (ragObj : JObj)
    (llm : Except String JObj) : AnalysisResult :=
  match simplifierProcess ragObj llm with
  | Except.error e => failurePatch r4 e
  | Except.ok simplified =>
    { r4 with
      summary_one_line := jgetD simplified "summary_one_line" (JValue.str ""),
      what_is_this := jgetD simplified "what_is_this" (JValue.str ""),
      key_points := jgetD simplified "key_points" (JValue.arr []),
      steps_easy := jgetD simplified "steps_easy" (JValue.arr []),
      risk_level := jgetD simplified "risk_level" r4.risk_level,
      dont_worry := jgetD simplified "dont_worry" (JValue.str ""),
      need_help_message :=
        jgetD simplified "need_help_message" (JValue.str "") }

/-- Stage 6 of the pipeline: action planning (lines 170-176), then stage
7. -/
def planStage (r3 : AnalysisResult) (docType : JValue) (keyInfo ragObj : JObj)
    (planLLM simpLLM : Except String JObj) : AnalysisResult :=
  match plannerProcess docType keyInfo ragObj planLLM with
  | Except.error e => failurePatch r3 e
  | Except.ok plan => simplStage { r3 with action_plan := plan } ragObj simpLLM

/-- Stages 3-7, common to `analyze` and `analyze_text`: classification,
extraction, retrieval, planning, simplification, with the `except` handler
applied to whichever stage raises first. -/
def runStages (r0 : AnalysisResult) (text : String) (o : StageOracles) :
    AnalysisResult :=
  match o.cls with
  | Except.error e => failurePatch r0 e
  | Except.ok c =>
    let r1 := { r0 with
      doc_type := jgetD c "doc_type" (JValue.str "기타_공공문서"),
      doc_type_name := jgetD c "doc_type_name" (JValue.str "기타 공공문서"),
      organization := jgetD c "organization" (JValue.str "") }
    match extractorProcess text o.ext with
    | Except.error e => failurePatch r1 e
    | Except.ok keyInfo =>
      let r2 := { r1 with
        key_info := keyInfo,
        action_required := jgetD keyInfo "action_required" (JValue.bool false),
        risk_level := deriveRiskLevel keyInfo }
      match o.rag with
      | Except.error e => failurePatch r2 e
      | Except.ok ragObj =>
        let r3 := { r2 with
          evidence_chunks := jgetD ragObj "retrieved_chunks" (JValue.arr []) }
        planStage r3 r1.doc_type keyInfo ragObj o.plan o.simpl

/-- `DocumentAnalysisPipeline.analyze_text`: perfect confidence, no
empty-text check, then stages 3-7; elapsed time stored in `finally`. -/
def analyzeTextRun (o : StageOracles) (text : String) (elapsedMs : Int) :
    AnalysisResult :=
  let r := runStages { ocr_confidence := 100 } text o
  { r with processing_time_ms := elapsedMs }

/-- `DocumentAnalysisPipeline.analyze`: acquisition (preprocess + OCR,
external) yields the combined text and mean confidence or raises; an
all-whitespace text short-circuits before classification; any stage
exception is caught; elapsed time stored in `finally`. -/
def analyzeRun (acq : Except String String) (avgConf : Int)
    (o : StageOracles) (elapsedMs : Int) : AnalysisResult :=
  let r := match acq with
    | Except.error e => failurePatch {} e
    | Except.ok text =>
      let r0 : AnalysisResult := { ocr_confidence := avgConf }
      if stripEmpty text then emptyTextPatch r0
      else runStages r0 text o
  { r with processing_time_ms := elapsedMs }

/-! ## Model of the history log

`add_to_history` / `save_history` (src/api/main.py, lines 61-82): a new
entry is inserted at the front of the in-memory list; the persisted file
receives `analysis_history[-50:]`, the last 50 elements of that list. -/

/-- `analysis_history.insert(0, history_entry)`. -/
def addToHistory {α : Type} (hist : List α) (entry : α) : List α :=
  entry :: hist

/-- `analysis_history[-50:]`, the slice written by `save_history`. -/
def savedHistory {α : Type} (hist : List α) : List α :=
  hist.drop (hist.length - 50)

/-! ## Auxiliary predicates used by the statements below -/

/-- Did this stage outcome raise? -/
def exceptIsError {ε α : Type} : Except ε α → Bool
  | Except.error _ => true
  | Except.ok _ => false

/-- Some stage of the run raised an exception. -/
def anyStageErr (o : StageOracles) : Bool :=
  exceptIsError o.cls || exceptIsError o.ext || exceptIsError o.rag
    || exceptIsError o.plan || exceptIsError o.simpl

/-- A Boolean predicate holding of every successful outcome (vacuously of a
raised one). -/
def exceptOkSat {ε α : Type} (x : Except ε α) (p : α → Bool) : Bool :=
  match x with
  | Except.ok a => p a
  | Except.error _ => true

/-- A proposition holding of every successful outcome (vacuously of a raised
one). -/
def exceptOkProp {ε α : Type} (x : Except ε α) (P : α → Prop) : Prop :=
  match x with
  | Except.ok a => P a
  | Except.error _ => True

/-- The action-type priority table exactly as the specification words it,
as an ordered rule list (condition, decision); spec-side definition for the
refinement comparison with `determineActionType`. -/
def specActionRules (docType : String) (keyInfo : JObj) :
    List (Bool × String) :=
  let dtl := docType.toLower
  [((jgetD keyInfo "amount" JValue.null).truthy
      && (jgetD keyInfo "due_date" JValue.null).truthy
      && (jgetD keyInfo "penalty_risk" JValue.null).eqStr "HIGH", "URGENT"),
   ((jgetD keyInfo "amount" JValue.null).truthy
      && (jgetD keyInfo "due_date" JValue.null).truthy, "PAY"),
   ((jgetD keyInfo "action_required" JValue.null).truthy
      && (jgetD keyInfo "penalty_risk" JValue.null).eqStr "HIGH", "URGENT"),
   ((jgetD keyInfo "action_required" JValue.null).truthy, "CHECK"),
   ((strContains dtl "고지서" || strContains dtl "납부")
      && (jgetD keyInfo "amount" JValue.null).truthy, "PAY"),
   (strContains dtl "통지서" || strContains dtl "체납", "URGENT"),
   (strContains dtl "안내문", "NONE"),
   (true, "CHECK")]

/-- First matching rule of the specification's priority table. -/
def specActionDecision (docType : String) (keyInfo : JObj) : String :=
  (((specActionRules docType keyInfo).find? (fun r => r.1)).map
    (fun r => r.2)).getD "CHECK"

/-- The worked scenario input of the specification. -/
def scenarioText : String :=
  "납부금액: 150,000원, 납부기한: 2025-01-31, 문의: 1577-1000"

/-- A run whose five stage outcomes all succeeded with empty objects. -/
def allOkOracles : StageOracles :=
  { cls := Except.ok [], ext := Except.ok [], rag := Except.ok [],
    plan := Except.ok [], simpl := Except.ok [] }

/-- A run whose extraction refinement reported HIGH penalty risk and whose
simplification output omitted `risk_level` (an empty object). -/
def highRiskOracles : StageOracles :=
  { cls := Except.ok [], ext := Except.ok [("penalty_risk", JValue.str "HIGH")],
    rag := Except.ok [], plan := Except.ok [], simpl := Except.ok [] }

/-! ## Lemmas about the dict model -/

theorem jget_map_overwrite (o : JObj) (k : String) (v : JValue) :
    jget (o.map (fun kv => if kv.1 = k then (kv.1, v) else kv)) k
      = if (jget o k).isSome then some v else none := by
  induction o with
  | nil => simp [jget]
  | cons kv rest ih =>
    obtain ⟨k1, v1⟩ := kv
    simp only [List.map_cons]
    by_cases hk : k1 = k
    · simp only [hk, if_true]
      cases hr : jget rest k with
      | some r => simp only [jget, hr, ih, Option.isSome] at *; simp_all [jget, ih]
      | none => simp_all [jget]
    · simp only [hk, if_false]
      cases hr : jget rest k with
      | some r => simp_all [jget]
      | none => simp_all [jget]

theorem jget_map_overwrite_other (o : JObj) (k k' : String) (v : JValue)
    (h : k ≠ k') :
    jget (o.map (fun kv => if kv.1 = k then (kv.1, v) else kv)) k'
      = jget o k' := by
  induction o with
  | nil => simp [jget]
  | cons kv rest ih =>
    obtain ⟨k1, v1⟩ := kv
    simp only [List.map_cons]
    by_cases hk : k1 = k
    · subst hk
      rw [if_pos rfl]
      have hk' : ¬ (k1 = k') := h
      simp [jget, hk', ih]
    · rw [if_neg hk]
      simp [jget, ih]

theorem jget_append_single_same (o : JObj) (k : String) (v : JValue) :
    jget (o ++ [(k, v)]) k = some v := by
  induction o with
  | nil => simp [jget]
  | cons kv rest ih =>
    obtain ⟨k1, v1⟩ := kv
    simp [jget, ih]

theorem jget_append_single_other (o : JObj) (k k' : String) (v : JValue)
    (h : k ≠ k') :
    jget (o ++ [(k, v)]) k' = jget o k' := by
  induction o with
  | nil => simp [jget, h]
  | cons kv rest ih =>
    obtain ⟨k1, v1⟩ := kv
    simp [jget, ih]

theorem jget_jset_same (o : JObj) (k : String) (v : JValue) :
    jget (jset o k v) k = some v := by
  unfold jset
  by_cases h : jhasKey o k
  · have hs : (jget o k).isSome := h
    simp [h, jget_map_overwrite, hs]
  · simp [h, jget_append_single_same]

theorem jget_jset_other (o : JObj) (k k' : String) (v : JValue) (h : k ≠ k') :
    jget (jset o k v) k' = jget o k' := by
  unfold jset
  by_cases hk : jhasKey o k
  · simp [hk, jget_map_overwrite_other _ _ _ _ h]
  · simp [hk, jget_append_single_other _ _ _ _ h]

/-! ## Lemmas for the rule-based extraction -/

theorem rxScan_ne_nil (m : List Char → Option (List Char)) :
    ∀ (fuel : Nat) (cs : List Char), cs.length < fuel →
      (∃ s, s <:+ cs ∧ (m s).isSome) → rxScan m fuel cs ≠ [] := by
  intro fuel
  induction fuel with
  | zero => intro cs h _; exact absurd h (Nat.not_lt_zero _)
  | succ f ih =>
    intro cs hlen hex
    obtain ⟨s, hs, hm⟩ := hex
    cases hmc : m cs with
    | some rest =>
      simp only [rxScan, hmc]
      by_cases hr : rest.length < cs.length
      · simp [hr]
      · rw [if_neg hr]
        cases cs <;> simp
    | none =>
      cases cs with
      | nil =>
        have hse : s = [] := List.suffix_nil.mp hs
        subst hse
        rw [hmc] at hm
        simp at hm
      | cons c cs' =>
        have hs' : s <:+ cs' := by
          rcases List.suffix_cons_iff.mp hs with h1 | h1
          · subst h1
            rw [hmc] at hm
            simp at hm
          · exact h1
        simp only [rxScan, hmc]
        have hlen' : cs'.length < f := by
          simp only [List.length_cons] at hlen
          omega
        exact ih cs' hlen' ⟨s, hs', hm⟩

theorem addCandidates_ne_nil_left (acc xs : List String) (h : acc ≠ []) :
    addCandidates acc xs ≠ [] := by
  induction xs generalizing acc with
  | nil => simpa [addCandidates]
  | cons x rest ih =>
    show List.foldl _ _ (x :: rest) ≠ []
    rw [List.foldl_cons]
    refine ih _ ?_
    by_cases hx : x ∈ acc <;> simp [hx, h]

theorem addCandidates_ne_nil_right (acc xs : List String) (h : xs ≠ []) :
    addCandidates acc xs ≠ [] := by
  cases xs with
  | nil => exact absurd rfl h
  | cons x rest =>
    show List.foldl _ _ (x :: rest) ≠ []
    rw [List.foldl_cons]
    refine addCandidates_ne_nil_left _ _ ?_
    by_cases hx : x ∈ acc
    · rw [if_pos hx]
      intro hnil
      rw [hnil] at hx
      simp at hx
    · simp [hx]

theorem amtRx1_at_marker (post : List Char) :
    amtRx1 ('1' :: '5' :: '0' :: ',' :: '0' :: '0' :: '0' :: '원' :: post)
      = some post := rfl

theorem amountsOf_ne_nil (pre post : String) :
    amountsOf (pre ++ "150,000원" ++ post) ≠ [] := by
  have hdata : (pre ++ "150,000원" ++ post).data
      = pre.data ++ ("150,000원".data ++ post.data) := by
    rw [String.data_append, String.data_append, List.append_assoc]
  have hm : (amtRx1 ("150,000원".data ++ post.data)).isSome := by
    rw [show ("150,000원".data ++ post.data)
          = '1' :: '5' :: '0' :: ',' :: '0' :: '0' :: '0' :: '원' :: post.data
        from rfl, amtRx1_at_marker]
    rfl
  have hsufx : ("150,000원".data ++ post.data) <:+ (pre ++ "150,000원" ++ post).data := by
    rw [hdata]
    exact List.suffix_append _ _
  have hscan : rxScan amtRx1 ((pre ++ "150,000원" ++ post).data.length + 1)
      (pre ++ "150,000원" ++ post).data ≠ [] :=
    rxScan_ne_nil _ _ _ (Nat.lt_succ_self _) ⟨_, hsufx, hm⟩
  have hrun : runRx amtRx1 (pre ++ "150,000원" ++ post) ≠ [] := by
    unfold runRx
    rw [Ne, List.map_eq_nil_iff]
    exact hscan
  unfold amountsOf
  simp only [List.foldl_cons, List.foldl_nil]
  exact addCandidates_ne_nil_left _ _ (addCandidates_ne_nil_left _ _
    (addCandidates_ne_nil_left _ _ (addCandidates_ne_nil_left _ _
      (addCandidates_ne_nil_left _ _ (addCandidates_ne_nil_right _ _ hrun)))))

/-! ## Lemmas about the stage wrappers -/

theorem extractorProcess_error (text : String) (e : String) :
    extractorProcess text (Except.error e) = Except.error e := rfl

theorem extractorProcess_ok (text : String) (j : JObj) :
    extractorProcess text (Except.ok j)
      = Except.ok (fillMissing j extractorDefaults) := rfl

theorem generateActionPlan_ok (a u : String) (j : JObj) :
    generateActionPlan a u (Except.ok j)
      = Except.ok (ensureKey (ensureKey (ensureSteps j) "action_type"
          (JValue.str a)) "urgency" (JValue.str u)) := rfl

theorem plannerProcess_llm_error (dt : JValue) (k rag : JObj) (e : String) :
    ∃ e', plannerProcess dt k rag (Except.error e) = Except.error e' := by
  cases dt <;> exact ⟨_, rfl⟩

theorem generateActionPlan_error (a u : String) (e : String) :
    generateActionPlan a u (Except.error e) = Except.error e := rfl

theorem plannerProcess_ok_inv (dt : JValue) (k rag : JObj)
    (llm : Except String JObj) (p : JObj)
    (h : plannerProcess dt k rag llm = Except.ok p) : ∃ j, llm = Except.ok j := by
  cases dt
  case str s =>
    cases llm with
    | error e =>
      rw [show plannerProcess (JValue.str s) k rag (Except.error e)
            = Except.error e from rfl] at h
      exact absurd h (by simp)
    | ok j => exact ⟨j, rfl⟩
  all_goals simp [plannerProcess] at h

theorem simplifierProcess_llm_error (rag : JObj) (e : String) :
    ∃ e', simplifierProcess rag (Except.error e) = Except.error e' := by
  cases hs : simplifierGuideScan rag with
  | error e0 => exact ⟨e0, by simp [simplifierProcess, hs, Bind.bind, Except.bind]⟩
  | ok u => exact ⟨e, by simp [simplifierProcess, hs, Bind.bind, Except.bind]⟩

theorem simplifierProcess_ok_inv (rag : JObj) (llm : Except String JObj)
    (s : JObj) (h : simplifierProcess rag llm = Except.ok s) :
    ∃ j, llm = Except.ok j ∧ s = fillFalsy j simplifierDefaults := by
  cases hs : simplifierGuideScan rag with
  | error e0 =>
    rw [show simplifierProcess rag llm = Except.error e0 from by
      simp [simplifierProcess, hs, Bind.bind, Except.bind]] at h
    exact absurd h (by simp)
  | ok u =>
    cases llm with
    | error e =>
      obtain ⟨e', he⟩ := simplifierProcess_llm_error rag e
      rw [he] at h
      exact absurd h (by simp)
    | ok j =>
      refine ⟨j, rfl, ?_⟩
      have : simplifierProcess rag (Except.ok j)
          = Except.ok (fillFalsy j simplifierDefaults) := by
        simp [simplifierProcess, hs, Bind.bind, Except.bind, Pure.pure, Except.pure]
      rw [this] at h
      exact (Except.ok.injEq _ _).mp h.symm

theorem jget_fillFalsyStep_other (r : JObj) (kd : String × JValue)
    (k' : String) (h : kd.1 ≠ k') :
    jget (fillFalsyStep r kd) k' = jget r k' := by
  unfold fillFalsyStep
  by_cases hc : (jgetD r kd.1 JValue.null).truthy
  · rw [if_pos hc]
  · rw [if_neg hc]
    exact jget_jset_other _ _ _ _ h

theorem fillFalsyStep_truthy_self (r : JObj) (kd : String × JValue)
    (hd : kd.2.truthy = true) :
    ∃ v, jget (fillFalsyStep r kd) kd.1 = some v ∧ v.truthy = true := by
  unfold fillFalsyStep
  by_cases hc : (jgetD r kd.1 JValue.null).truthy
  · rw [if_pos hc]
    cases hv : jget r kd.1 with
    | none =>
      unfold jgetD at hc
      rw [hv] at hc
      simp [JValue.truthy] at hc
    | some v =>
      refine ⟨v, rfl, ?_⟩
      unfold jgetD at hc
      rw [hv] at hc
      exact hc
  · rw [if_neg hc]
    exact ⟨kd.2, jget_jset_same _ _ _, hd⟩

theorem fillFalsy_steps_easy (o : JObj) :
    ∃ v, jget (fillFalsy o simplifierDefaults) "steps_easy" = some v
      ∧ v.truthy = true := by
  unfold fillFalsy simplifierDefaults
  simp only [List.foldl_cons, List.foldl_nil]
  rw [jget_fillFalsyStep_other _ _ _ (by decide),
      jget_fillFalsyStep_other _ _ _ (by decide),
      jget_fillFalsyStep_other _ _ _ (by decide)]
  exact fillFalsyStep_truthy_self _ _ rfl

theorem ensureSteps_self (j : JObj) :
    ∃ v, jget (ensureSteps j) "steps" = some v ∧ v.truthy = true := by
  unfold ensureSteps
  cases hs : jget j "steps" with
  | none => exact ⟨genericStep, jget_jset_same _ _ _, rfl⟩
  | some w =>
    dsimp only
    by_cases ht : w.truthy
    · rw [if_pos ht]
      exact ⟨w, hs, ht⟩
    · rw [if_neg ht]
      exact ⟨genericStep, jget_jset_same _ _ _, rfl⟩

theorem ensureSteps_other (j : JObj) (k' : String) (h : "steps" ≠ k') :
    jget (ensureSteps j) k' = jget j k' := by
  unfold ensureSteps
  cases hs : jget j "steps" with
  | none => exact jget_jset_other _ _ _ _ h
  | some w =>
    dsimp only
    by_cases ht : w.truthy
    · rw [if_pos ht]
    · rw [if_neg ht]
      exact jget_jset_other _ _ _ _ h

theorem jget_ensureKey_other (j : JObj) (k k' : String) (v : JValue)
    (h : k ≠ k') :
    jget (ensureKey j k v) k' = jget j k' := by
  unfold ensureKey
  by_cases hk : jhasKey j k
  · rw [if_pos hk]
  · rw [if_neg hk]
    exact jget_jset_other _ _ _ _ h

theorem jget_ensureKey_same (j : JObj) (k : String) (v : JValue) :
    jget (ensureKey j k v) k = some ((jget j k).getD v) := by
  unfold ensureKey
  cases hk : jget j k with
  | none =>
    rw [if_neg (by simp [jhasKey, hk])]
    simp [jget_jset_same]
  | some w =>
    rw [if_pos (by simp [jhasKey, hk])]
    simp [hk]

/-! ## Lemmas about the pipeline stages -/

theorem simplStage_steps_easy (r4 : AnalysisResult) (ragObj : JObj)
    (llm : Except String JObj) :
    ((simplStage r4 ragObj llm).steps_easy).truthy = true := by
  cases hs : simplifierProcess ragObj llm with
  | error e => simp [simplStage, hs, failurePatch, JValue.truthy]
  | ok s =>
    obtain ⟨j, _, hfill⟩ := simplifierProcess_ok_inv ragObj llm s hs
    obtain ⟨v, hv, hvt⟩ := fillFalsy_steps_easy j
    simp only [simplStage, hs]
    show (jgetD s "steps_easy" (JValue.arr [])).truthy = true
    rw [hfill]
    unfold jgetD
    rw [hv]
    exact hvt

theorem planStage_steps_easy (r3 : AnalysisResult) (dt : JValue)
    (keyInfo ragObj : JObj) (planLLM simpLLM : Except String JObj) :
    ((planStage r3 dt keyInfo ragObj planLLM simpLLM).steps_easy).truthy
      = true := by
  cases hp : plannerProcess dt keyInfo ragObj planLLM with
  | error e => simp [planStage, hp, failurePatch, JValue.truthy]
  | ok p =>
    simp only [planStage, hp]
    exact simplStage_steps_easy _ _ _

theorem runStages_steps_easy (r0 : AnalysisResult) (text : String)
    (o : StageOracles) : ((runStages r0 text o).steps_easy).truthy = true := by
  obtain ⟨cls, ext, rag, plan, simpl⟩ := o
  cases cls with
  | error e => rfl
  | ok c =>
    cases ext with
    | error e => rfl
    | ok j =>
      cases rag with
      | error e => rfl
      | ok ragObj => exact planStage_steps_easy _ _ _ _ _ _

theorem simplStage_llm_error (r4 : AnalysisResult) (ragObj : JObj)
    (e : String) :
    ∃ r' e', simplStage r4 ragObj (Except.error e) = failurePatch r' e' := by
  obtain ⟨e', he⟩ := simplifierProcess_llm_error ragObj e
  exact ⟨r4, e', by simp [simplStage, he]⟩

theorem planStage_plan_error (r3 : AnalysisResult) (dt : JValue)
    (keyInfo ragObj : JObj) (e : String) (simpLLM : Except String JObj) :
    ∃ r' e', planStage r3 dt keyInfo ragObj (Except.error e) simpLLM
      = failurePatch r' e' := by
  obtain ⟨e', he⟩ := plannerProcess_llm_error dt keyInfo ragObj e
  exact ⟨r3, e', by simp [planStage, he]⟩

theorem planStage_simpl_error (r3 : AnalysisResult) (dt : JValue)
    (keyInfo ragObj : JObj) (planLLM : Except String JObj) (e : String) :
    ∃ r' e', planStage r3 dt keyInfo ragObj planLLM (Except.error e)
      = failurePatch r' e' := by
  cases hp : plannerProcess dt keyInfo ragObj planLLM with
  | error e0 => exact ⟨r3, e0, by simp [planStage, hp]⟩
  | ok p =>
    obtain ⟨r', e', h⟩ := simplStage_llm_error
      { r3 with action_plan := p } ragObj e
    exact ⟨r', e', by simp [planStage, hp, h]⟩

theorem runStages_failure (r0 : AnalysisResult) (text : String)
    (o : StageOracles) (h : anyStageErr o = true) :
    ∃ r' e', runStages r0 text o = failurePatch r' e' := by
  obtain ⟨cls, ext, rag, plan, simpl⟩ := o
  cases cls with
  | error e => exact ⟨r0, e, rfl⟩
  | ok c =>
    cases ext with
    | error e => exact ⟨_, e, rfl⟩
    | ok j =>
      cases rag with
      | error e => exact ⟨_, e, rfl⟩
      | ok ragObj =>
        cases plan with
        | error e =>
          obtain ⟨r', e', hpe⟩ := planStage_plan_error _ _ _ ragObj e simpl
          exact ⟨r', e', hpe⟩
        | ok pl =>
          cases simpl with
          | error e =>
            obtain ⟨r', e', hpe⟩ := planStage_simpl_error _ _ _ ragObj
              (Except.ok pl) e
            exact ⟨r', e', hpe⟩
          | ok sl => simp [anyStageErr, exceptIsError] at h

theorem actionTable_eq (dt : String) (k : JObj) :
    determineActionType dt k = specActionDecision dt k := by
  unfold determineActionType specActionDecision specActionRules
  cases h1 : (jgetD k "amount" JValue.null).truthy <;>
  cases h2 : (jgetD k "due_date" JValue.null).truthy <;>
  cases h3 : (jgetD k "penalty_risk" JValue.null).eqStr "HIGH" <;>
  cases h4 : (jgetD k "action_required" JValue.null).truthy <;>
  cases h5 : (strContains (String.toLower dt) "고지서"
      || strContains (String.toLower dt) "납부") <;>
  cases h6 : (strContains (String.toLower dt) "통지서"
      || strContains (String.toLower dt) "체납") <;>
  cases h7 : strContains (String.toLower dt) "안내문" <;>
  simp [h1, h2, h3, h4, h5, h6, h7, List.find?]

theorem plannerProcess_steps_truthy (dt : JValue) (keyInfo ragObj : JObj)
    (llm : Except String JObj) :
    exceptOkSat (plannerProcess dt keyInfo ragObj llm)
      (fun p => (jgetD p "steps" JValue.null).truthy) = true := by
  cases dt
  case str s =>
    cases llm with
    | error e => rfl
    | ok j =>
      rw [show plannerProcess (JValue.str s) keyInfo ragObj (Except.ok j)
            = generateActionPlan (determineActionType s keyInfo)
                (determineUrgency keyInfo) (Except.ok j) from rfl,
          generateActionPlan_ok]
      simp only [exceptOkSat]
      obtain ⟨v, hv, hvt⟩ := ensureSteps_self j
      unfold jgetD
      rw [jget_ensureKey_other _ _ _ _ (by decide),
          jget_ensureKey_other _ _ _ _ (by decide), hv]
      exact hvt
  all_goals rfl

/-! ## The claims -/

/-- C1: the specification requires that a designated high-risk lexical marker
(such as 독촉 or 체납) in the source text force `penalty_risk = "HIGH"` and
`action_required = true` in the extractor's result regardless of the
generative refinement's answer, and that a medium-risk marker force at least
`"MEDIUM"`.  The code contains no such enforcement — the rule exists only as
an instruction inside the refinement prompt — so on a text containing 독촉 a
refinement output that omits both fields is returned with the defaults
`penalty_risk = "NONE"` and `action_required = false`.  This theorem
evaluates the code at that failing input. -/
theorem claim_C1_marker_not_enforced :
    strContains "독촉장이 왔습니다" "독촉" = true ∧
    extractorProcess "독촉장이 왔습니다" (Except.ok [])
      = Except.ok extractorDefaults ∧
    jget extractorDefaults "penalty_risk" = some (JValue.str "NONE") ∧
    jget extractorDefaults "action_required" = some (JValue.bool false) :=
  ⟨by decide, rfl, rfl, rfl⟩

/-- C2: the specification requires that a run whose extracted `penalty_risk`
is `"HIGH"` deliver `risk_level = "HIGH"`, never a lower level, whatever the
simplification stage returns or omits.  The code instead overwrites
`risk_level` with the simplification output, whose default loop substitutes
`"LOW"` when the key is absent or falsy: with extraction reporting HIGH and a
simplification output that omits `risk_level`, the delivered result carries
`risk_level = "LOW"`.  This theorem evaluates the code at that failing
input. -/
theorem claim_C2_risk_downgraded :
    jget (analyzeTextRun highRiskOracles "독촉장" 0).key_info "penalty_risk"
      = some (JValue.str "HIGH") ∧
    (analyzeTextRun highRiskOracles "독촉장" 0).risk_level = JValue.str "LOW" :=
  ⟨rfl, rfl⟩

/-- C3, counterexample: the claim's scenario asserts that the phone
candidate list contains the exact string `"1577-1000"`; the code stores
`match.group(0)` for phones, so the label-bearing pattern contributes
`"문의: 1577-1000"` and no pattern ever produces the bare `"1577-1000"`.
The general membership claim also fails when the amount is embedded in a
longer amount: for `"1,150,000원"` the only candidate is the longer match. -/
theorem claim_C3_counterexample :
    (phonesOf scenarioText).contains "1577-1000" = false ∧
    phonesOf scenarioText
      = ["1577", "1000", "문의: 1577-1000"] ∧
    (amountsOf "1,150,000원").contains "150,000원" = false ∧
    amountsOf "1,150,000원" = ["1,150,000원"] := by
  refine ⟨by decide, by decide, by decide, by decide⟩

/-- C3, amended: for the scenario input the amounts candidates contain the
exact string `"150,000원"`, the dates candidates contain `"2025-01-31"`, and
the phone candidates contain the full match `"문의: 1577-1000"` (the code
keeps `group(0)`, label included, and never the bare number); and for every
text containing `"150,000원"` the amounts candidate list is non-empty,
though the literal itself is a candidate only when not embedded in a longer
matched amount. -/
theorem claim_C3_amended :
    "150,000원" ∈ amountsOf scenarioText ∧
    "2025-01-31" ∈ datesOf scenarioText ∧
    "문의: 1577-1000" ∈ phonesOf scenarioText ∧
    (∀ pre post : String,
      (amountsOf (pre ++ "150,000원" ++ post)).isEmpty = false) := by
  refine ⟨by decide, by decide, by decide, ?_⟩
  intro pre post
  cases h : amountsOf (pre ++ "150,000원" ++ post) with
  | nil => exact absurd h (amountsOf_ne_nil pre post)
  | cons x rest => rfl

/-- C4, counterexample: the claim asserts a non-empty action-plan `steps`
list on every pipeline run, but a run that short-circuits on empty acquired
text (likewise one that fails in an early stage) delivers the dataclass
default `action_plan = {}`, which has no `steps` at all; `steps_easy` is
still non-empty there. -/
theorem claim_C4_counterexample :
    (analyzeRun (Except.ok "   ") 50 allOkOracles 0).action_plan = [] ∧
    jget (analyzeRun (Except.ok "   ") 50 allOkOracles 0).action_plan "steps"
      = none ∧
    ((analyzeRun (Except.ok "   ") 50 allOkOracles 0).steps_easy).truthy
      = true :=
  ⟨rfl, rfl, rfl⟩

/-- C4, amended: every action plan actually returned by the planner carries a
present, non-empty (truthy) `steps` value — the generic
further-confirmation step is substituted when generation yields none — and
the `steps_easy` value of the delivered result is non-empty on every run of
`analyze_text` and `analyze`, including short-circuit and failure runs; but
runs that never reach planning deliver an empty `action_plan` dict. -/
theorem claim_C4_amended :
    (∀ (dt : JValue) (keyInfo ragObj : JObj) (llm : Except String JObj),
      exceptOkSat (plannerProcess dt keyInfo ragObj llm)
        (fun p => (jgetD p "steps" JValue.null).truthy) = true) ∧
    (∀ (o : StageOracles) (text : String) (elapsed : Int),
      ((analyzeTextRun o text elapsed).steps_easy).truthy = true) ∧
    (∀ (acq : Except String String) (conf : Int) (o : StageOracles)
        (elapsed : Int),
      ((analyzeRun acq conf o elapsed).steps_easy).truthy = true) := by
  refine ⟨plannerProcess_steps_truthy, ?_, ?_⟩
  · intro o text elapsed
    exact runStages_steps_easy _ _ _
  · intro acq conf o elapsed
    cases acq with
    | error e => rfl
    | ok text =>
      show ((if stripEmpty text = true
          then emptyTextPatch { ocr_confidence := conf }
          else runStages { ocr_confidence := conf } text o).steps_easy).truthy
        = true
      by_cases h : stripEmpty text = true
      · rw [if_pos h]
        rfl
      · rw [if_neg h]
        exact runStages_steps_easy _ _ _

/-- C5: on every `analyze_text` (and non-short-circuiting `analyze`) run in
which a stage after acquisition raises, the call still returns (the model is
total), the delivered result carries the fixed analysis-failed one-liner and
the single retry step, and the elapsed time is recorded — as it is on every
other path of both entry points. -/
theorem claim_C5_failure_diagnostics :
    (∀ (o : StageOracles) (text : String) (elapsed : Int),
      anyStageErr o = true →
        (analyzeTextRun o text elapsed).summary_one_line
            = JValue.str "문서 분석 중 오류가 발생했습니다." ∧
        (analyzeTextRun o text elapsed).steps_easy
            = JValue.arr [JValue.str "다시 시도해주세요."] ∧
        (analyzeTextRun o text elapsed).processing_time_ms = elapsed) ∧
    (∀ (text : String) (conf : Int) (o : StageOracles) (elapsed : Int),
      anyStageErr o = true → stripEmpty text = false →
        (analyzeRun (Except.ok text) conf o elapsed).summary_one_line
            = JValue.str "문서 분석 중 오류가 발생했습니다." ∧
        (analyzeRun (Except.ok text) conf o elapsed).steps_easy
            = JValue.arr [JValue.str "다시 시도해주세요."] ∧
        (analyzeRun (Except.ok text) conf o elapsed).processing_time_ms
            = elapsed) ∧
    (∀ (o : StageOracles) (text : String) (elapsed : Int),
      (analyzeTextRun o text elapsed).processing_time_ms = elapsed) ∧
    (∀ (acq : Except String String) (conf : Int) (o : StageOracles)
        (elapsed : Int),
      (analyzeRun acq conf o elapsed).processing_time_ms = elapsed) := by
  refine ⟨?_, ?_, fun _ _ _ => rfl, fun _ _ _ _ => rfl⟩
  · intro o text elapsed h
    obtain ⟨r', e', heq⟩ :=
      runStages_failure { ocr_confidence := 100 } text o h
    refine ⟨?_, ?_, rfl⟩
    · show (runStages { ocr_confidence := 100 } text o).summary_one_line = _
      rw [heq]
      rfl
    · show (runStages { ocr_confidence := 100 } text o).steps_easy = _
      rw [heq]
      rfl
  · intro text conf o elapsed h hne
    obtain ⟨r', e', heq⟩ :=
      runStages_failure { ocr_confidence := conf } text o h
    have hif : (if stripEmpty text = true
        then emptyTextPatch { ocr_confidence := conf }
        else runStages { ocr_confidence := conf } text o)
          = runStages { ocr_confidence := conf } text o := by
      rw [hne]
      simp
    refine ⟨?_, ?_, rfl⟩
    · show (if stripEmpty text = true
          then emptyTextPatch { ocr_confidence := conf }
          else runStages { ocr_confidence := conf } text o).summary_one_line
        = _
      rw [hif, heq]
      rfl
    · show (if stripEmpty text = true
          then emptyTextPatch { ocr_confidence := conf }
          else runStages { ocr_confidence := conf } text o).steps_easy = _
      rw [hif, heq]
      rfl

/-- Witness for C5 at a concrete input: classification raised, text
non-empty. -/
theorem claim_C5_witness :
    anyStageErr { allOkOracles with cls := Except.error "boom" } = true ∧
    stripEmpty "가나다" = false ∧
    ((analyzeTextRun { allOkOracles with cls := Except.error "boom" }
        "가나다" 7).summary_one_line
      = JValue.str "문서 분석 중 오류가 발생했습니다." ∧
     (analyzeTextRun { allOkOracles with cls := Except.error "boom" }
        "가나다" 7).steps_easy
      = JValue.arr [JValue.str "다시 시도해주세요."] ∧
     (analyzeTextRun { allOkOracles with cls := Except.error "boom" }
        "가나다" 7).processing_time_ms = 7) ∧
    ((analyzeRun (Except.ok "가나다") 9
        { allOkOracles with cls := Except.error "boom" } 7).summary_one_line
      = JValue.str "문서 분석 중 오류가 발생했습니다." ∧
     (analyzeRun (Except.ok "가나다") 9
        { allOkOracles with cls := Except.error "boom" } 7).steps_easy
      = JValue.arr [JValue.str "다시 시도해주세요."] ∧
     (analyzeRun (Except.ok "가나다") 9
        { allOkOracles with cls := Except.error "boom" } 7).processing_time_ms
      = 7) :=
  ⟨rfl, rfl,
   claim_C5_failure_diagnostics.1 _ "가나다" 7 rfl,
   claim_C5_failure_diagnostics.2.1 "가나다" 9 _ 7 rfl rfl⟩

/-- C6: an `analyze` run whose acquired text is empty or whitespace-only
short-circuits before classification and returns, without raising, the fixed
could-not-read one-liner with the single retake-the-photo step; the
stage-default fields are untouched and the elapsed time is recorded. -/
theorem claim_C6_empty_text_short_circuit :
    ∀ (text : String) (conf : Int) (o : StageOracles) (elapsed : Int),
      stripEmpty text = true →
        (analyzeRun (Except.ok text) conf o elapsed).summary_one_line
            = JValue.str "문서를 읽을 수 없습니다." ∧
        (analyzeRun (Except.ok text) conf o elapsed).steps_easy
            = JValue.arr [JValue.str "더 선명한 사진을 다시 찍어주세요."] ∧
        (analyzeRun (Except.ok text) conf o elapsed).doc_type
            = JValue.str "" ∧
        (analyzeRun (Except.ok text) conf o elapsed).key_info = [] ∧
        (analyzeRun (Except.ok text) conf o elapsed).action_plan = [] ∧
        (analyzeRun (Except.ok text) conf o elapsed).processing_time_ms
            = elapsed := by
  intro text conf o elapsed h
  have hif : (if stripEmpty text = true
      then emptyTextPatch { ocr_confidence := conf }
      else runStages { ocr_confidence := conf } text o)
        = emptyTextPatch { ocr_confidence := conf } := by
    rw [h]
    simp
  refine ⟨?_, ?_, ?_, ?_, ?_, rfl⟩
  · show (if stripEmpty text = true
        then emptyTextPatch { ocr_confidence := conf }
        else runStages { ocr_confidence := conf } text o).summary_one_line = _
    rw [hif]
    rfl
  · show (if stripEmpty text = true
        then emptyTextPatch { ocr_confidence := conf }
        else runStages { ocr_confidence := conf } text o).steps_easy = _
    rw [hif]
    rfl
  · show (if stripEmpty text = true
        then emptyTextPatch { ocr_confidence := conf }
        else runStages { ocr_confidence := conf } text o).doc_type = _
    rw [hif]
    rfl
  · show (if stripEmpty text = true
        then emptyTextPatch { ocr_confidence := conf }
        else runStages { ocr_confidence := conf } text o).key_info = _
    rw [hif]
    rfl
  · show (if stripEmpty text = true
        then emptyTextPatch { ocr_confidence := conf }
        else runStages { ocr_confidence := conf } text o).action_plan = _
    rw [hif]
    rfl

/-- Witness for C6 at a concrete input: whitespace-only text, a raising
classifier oracle (the short-circuit never consults it). -/
theorem claim_C6_witness :
    stripEmpty " \n " = true ∧
    ((analyzeRun (Except.ok " \n ") 3
        { allOkOracles with cls := Except.error "x" } 11).summary_one_line
      = JValue.str "문서를 읽을 수 없습니다." ∧
     (analyzeRun (Except.ok " \n ") 3
        { allOkOracles with cls := Except.error "x" } 11).steps_easy
      = JValue.arr [JValue.str "더 선명한 사진을 다시 찍어주세요."] ∧
     (analyzeRun (Except.ok " \n ") 3
        { allOkOracles with cls := Except.error "x" } 11).doc_type
      = JValue.str "" ∧
     (analyzeRun (Except.ok " \n ") 3
        { allOkOracles with cls := Except.error "x" } 11).key_info = [] ∧
     (analyzeRun (Except.ok " \n ") 3
        { allOkOracles with cls := Except.error "x" } 11).action_plan = [] ∧
     (analyzeRun (Except.ok " \n ") 3
        { allOkOracles with cls := Except.error "x" } 11).processing_time_ms
      = 11) :=
  ⟨rfl, claim_C6_empty_text_short_circuit " \n " 3 _ 11 rfl⟩

/-- C7: the planner's action-type decision equals the specification's
priority table, evaluated as its first matching rule, for every document
type and every extracted-facts dict. -/
theorem claim_C7_action_type_table :
    ∀ (docType : String) (keyInfo : JObj),
      determineActionType docType keyInfo
        = specActionDecision docType keyInfo :=
  actionTable_eq

/-- C8 (implicit): the table-computed action type and urgency are only
fallbacks — whenever the generative result of the planner already contains
an `action_type` or `urgency` key, that value is returned unchanged (even a
falsy one, and even one contradicting the table); only absent keys are
filled from the table. -/
theorem claim_C8_generative_overrides_table :
    ∀ (dt : String) (keyInfo ragObj llmObj : JObj),
      exceptOkProp
        (plannerProcess (JValue.str dt) keyInfo ragObj (Except.ok llmObj))
        (fun p =>
          jget p "action_type"
              = some ((jget llmObj "action_type").getD
                  (JValue.str (determineActionType dt keyInfo))) ∧
          jget p "urgency"
              = some ((jget llmObj "urgency").getD
                  (JValue.str (determineUrgency keyInfo)))) := by
  intro dt k rag j
  rw [show plannerProcess (JValue.str dt) k rag (Except.ok j)
        = generateActionPlan (determineActionType dt k) (determineUrgency k)
            (Except.ok j) from rfl,
      generateActionPlan_ok]
  simp only [exceptOkProp]
  constructor
  · rw [jget_ensureKey_other _ _ _ _ (by decide), jget_ensureKey_same,
        ensureSteps_other _ _ (by decide)]
  · rw [jget_ensureKey_same, jget_ensureKey_other _ _ _ _ (by decide),
        ensureSteps_other _ _ (by decide)]

/-- C9, counterexample: the claim asserts the JSON helper never raises — that
a failed brace-block extraction still yields the diagnostic sentinel.  But
when a brace-delimited block is found and itself fails to parse, the second
`json.loads` sits inside the `except` handler and its error propagates: on
the response `"I think {oops} maybe"` the helper raises instead of
returning. -/
theorem claim_C9_counterexample :
    callLlmJson "I think {oops} maybe" = Except.error "JSONDecodeError" := rfl

/-- C9, amended: for a response that is not well-formed JSON the helper
attempts best-effort extraction of a brace-delimited block; when no such
block exists it returns, without raising, the diagnostic sentinel dict
preserving the raw response; but when a block is found and also fails to
parse, the parse error propagates out of the helper. -/
theorem claim_C9_amended :
    ∀ response : String,
      jsonLoads response = none →
      braceExtract response.data = none →
      callLlmJson response = Except.ok (llmJsonSentinel response) := by
  intro r h1 h2
  unfold callLlmJson
  rw [h1, h2]

/-- Witness for C9 at a concrete input: a response with no brace block. -/
theorem claim_C9_amended_witness :
    jsonLoads "no json here" = none ∧
    braceExtract "no json here".data = none ∧
    callLlmJson "no json here"
      = Except.ok (llmJsonSentinel "no json here") :=
  ⟨rfl, rfl, claim_C9_amended "no json here" rfl rfl⟩

/-- C10: the claim says the persisted history keeps the most recent 50
entries, dropping the oldest beyond the cap.  `add_to_history` inserts new
entries at the front of the list while `save_history` persists
`analysis_history[-50:]`, the tail of that list — so after 51 appends
(entries numbered 0..50 in arrival order) the persisted slice has 50 entries
but drops the newest entry (50) and keeps the oldest (0): the code evaluated
at the failing input. -/
theorem claim_C10_history_keeps_oldest :
    (savedHistory
      (List.foldl addToHistory ([] : List Nat) (List.range 51))).length = 50 ∧
    (savedHistory
      (List.foldl addToHistory ([] : List Nat) (List.range 51))).contains 50
      = false ∧
    (savedHistory
      (List.foldl addToHistory ([] : List Nat) (List.range 51))).contains 0
      = true := by
  refine ⟨by decide, by decide, by decide⟩
